import Mathlib

/-!
Verification of `MDAnalysis.analysis.rms` (RMSD / RMSF analysis).

The definitions below are a shallow embedding of `package/MDAnalysis/analysis/rms.py`:
floating-point array arithmetic is modelled exactly over `ℚ` (with final square
roots taken in `ℝ`), numpy arrays become lists, and Python exceptions become
`Except` error values.  Components of the library that the module calls but that
are implemented elsewhere (the QCP superposition core `qcprot`, trajectory cursor
semantics, `asiterable`) are modelled from the specification and marked as such
in their doc comments.
-/

namespace MDRms

/-- A 3-vector of exact coordinates, modelling one row of an `N × 3` numpy
float array. -/
structure Vec3 where
  x : ℚ
  y : ℚ
  z : ℚ
deriving DecidableEq, Repr

def v3zero : Vec3 := ⟨0, 0, 0⟩

def v3add (a b : Vec3) : Vec3 := ⟨a.x + b.x, a.y + b.y, a.z + b.z⟩

def v3sub (a b : Vec3) : Vec3 := ⟨a.x - b.x, a.y - b.y, a.z - b.z⟩

def v3smul (c : ℚ) (a : Vec3) : Vec3 := ⟨c * a.x, c * a.y, c * a.z⟩

/-- Sum of the three components (numpy `.sum(axis=1)` on one row). -/
def v3sum (a : Vec3) : ℚ := a.x + a.y + a.z

/-! ## Python slice semantics

`trajectory[start:stop:step]` for a positive `step`, as used by `RMSF.run`
(`rms.py` line 566) and by the frame loops of `RMSD.run`.  Negative `start` /
`stop` count from the end, and both bounds are clamped to `[0, n]`. -/

/-- Resolve one slice bound against a sequence of length `n` (positive step). -/
def sliceBound (n : Nat) (i : Int) : Nat :=
  if i < 0 then ((n : Int) + i).toNat else min i.toNat n

/-- The indices selected by `[start:stop:step]` on a sequence of length `n`,
for a positive `step`. -/
def pySliceIdx (n : Nat) (start stop : Int) (step : Nat) : List Nat :=
  let s := sliceBound n start
  let e := sliceBound n stop
  (List.range n).filter (fun i => decide (s ≤ i) && decide (i < e) && ((i - s) % step == 0))

/-- The elements selected by `xs[start:stop:step]` for a positive `step`. -/
def pySlice {α : Type} (xs : List α) (start stop : Int) (step : Nat) : List α :=
  (pySliceIdx xs.length start stop step).filterMap (fun i => xs[i]?)

/-! ## RMSF streaming accumulator (`RMSF.run`, `rms.py` lines 552-578)

Each visited frame is a `List Vec3` of per-atom positions (`atomgroup.positions`);
the accumulator state consists of the `sumsquares` and `means` arrays, both
initialised to zeros of shape `(n_atoms, 3)`. -/

/-- Scalar form of `sumsquares += (k/(k + 1.0)) * (positions - means)**2`
(`rms.py` line 567). -/
def sumsqUpdate (k : Nat) (s p m : ℚ) : ℚ :=
  s + ((k : ℚ) / ((k : ℚ) + 1)) * (p - m) ^ 2

/-- Scalar form of `means = (k * means + positions)/(k + 1)` (`rms.py` line 568). -/
def meanUpdate (k : Nat) (p m : ℚ) : ℚ :=
  ((k : ℚ) * m + p) / ((k : ℚ) + 1)

def v3sumsqUpdate (k : Nat) (s p m : Vec3) : Vec3 :=
  ⟨sumsqUpdate k s.x p.x m.x, sumsqUpdate k s.y p.y m.y, sumsqUpdate k s.z p.z m.z⟩

def v3meanUpdate (k : Nat) (p m : Vec3) : Vec3 :=
  ⟨meanUpdate k p.x m.x, meanUpdate k p.y m.y, meanUpdate k p.z m.z⟩

/-- Element-wise update of the `sumsquares` array at visit index `k`. -/
def sumsqStepList (k : Nat) (sumsq means pos : List Vec3) : List Vec3 :=
  List.zipWith (fun sm p => v3sumsqUpdate k sm.1 p sm.2) (sumsq.zip means) pos

/-- Element-wise update of the `means` array at visit index `k`. -/
def meanStepList (k : Nat) (means pos : List Vec3) : List Vec3 :=
  List.zipWith (fun m p => v3meanUpdate k p m) means pos

/-- The `for k, ts in enumerate(...)` loop of `RMSF.run`: at each frame the
`sumsquares` array is updated with the old `means` (line 567), then `means` is
updated (line 568).  The returned `Nat` is `k + 1` for the last processed index
`k`, i.e. the value the loop variable has passed (for a nonempty frame list this
is exactly the `k + 1` used as the divisor on line 572). -/
def rmsfLoop : List (List Vec3) → Nat → List Vec3 → List Vec3 →
    (List Vec3 × List Vec3 × Nat)
  | [], k, sumsq, means => (sumsq, means, k)
  | pos :: rest, k, sumsq, means =>
      rmsfLoop rest (k + 1) (sumsqStepList k sumsq means pos) (meanStepList k means pos)

/-- Errors raised by `RMSF.run`: `nameError` models the Python `NameError` on
line 572 when the frame loop body never ran (`k` is unbound); `negativeValue`
models the `ValueError` of lines 574-576. -/
inductive RmsfError
  | nameError
  | negativeValue
deriving DecidableEq, Repr

open Classical in
/-- The part of `RMSF.run` after slicing: the accumulator loop over the visited
frames, the final `rmsf = np.sqrt(sumsquares.sum(axis=1)/(k + 1))` (line 572),
and the `(rmsf >= 0).all()` check (lines 574-576). -/
noncomputable def rmsfOnVisited (natoms : Nat) (visited : List (List Vec3)) :
    Except RmsfError (List ℝ) :=
  match visited with
  | [] => .error .nameError
  | _ :: _ =>
    let r := rmsfLoop visited 0 (List.replicate natoms v3zero) (List.replicate natoms v3zero)
    let rl : List ℝ := r.1.map (fun v => Real.sqrt (((v3sum v / (r.2.2 : ℚ)) : ℚ) : ℝ))
    if ∀ u ∈ rl, 0 ≤ u then .ok rl else .error .negativeValue

/-- `RMSF.run(start, stop, step)` (`rms.py` lines 527-578): slice the trajectory,
run the streaming accumulator over the visited frames, and return per-atom RMSF
values. -/
noncomputable def rmsfRun (natoms : Nat) (frames : List (List Vec3))
    (start stop : Int) (step : Nat) : Except RmsfError (List ℝ) :=
  rmsfOnVisited natoms (pySlice frames start stop step)

/-- `RMSF.run()` with its default arguments `start=0, stop=-1, step=1`
(`rms.py` line 527). -/
noncomputable def rmsfRunDefault (natoms : Nat) (frames : List (List Vec3)) :
    Except RmsfError (List ℝ) :=
  rmsfRun natoms frames 0 (-1) 1

/-- Written from the specification text (§4.4): same per-frame update rules, but
the final result is `sqrt(sum_over_xyz(sumsq) / total_frame_count)` where the
count is the actual number of frames visited. -/
noncomputable def specRmsf (natoms : Nat) (visited : List (List Vec3)) : List ℝ :=
  let r := rmsfLoop visited 0 (List.replicate natoms v3zero) (List.replicate natoms v3zero)
  r.1.map (fun v => Real.sqrt (((v3sum v / (visited.length : ℚ)) : ℚ) : ℝ))

/-- Decidable equality of `Except` values, for evaluating embedded functions
on concrete inputs. -/
instance {ε α : Type} [DecidableEq ε] [DecidableEq α] : DecidableEq (Except ε α) :=
  fun x y =>
  match x, y with
  | .ok a, .ok b =>
      if h : a = b then isTrue (by rw [h]) else isFalse (fun hh => by cases hh; exact h rfl)
  | .error a, .error b =>
      if h : a = b then isTrue (by rw [h]) else isFalse (fun hh => by cases hh; exact h rfl)
  | .ok _, .error _ => isFalse (fun hh => by cases hh)
  | .error _, .ok _ => isFalse (fun hh => by cases hh)

/-! ## Weight normalization and the `rmsd` function (`rms.py` lines 140-187) -/

/-- `np.mean(w)` for a 1-d array. -/
def qmean (w : List ℚ) : ℚ := w.sum / (w.length : ℚ)

/-- `np.asarray(weights) / np.mean(weights)` (`rms.py` line 177): the weights
relative to their mean.  A fresh array; the argument is not touched. -/
def relativeWeights (w : List ℚ) : List ℚ := w.map (fun v => v / qmean w)

/-- `np.average(a, axis=0, weights=w)`: the plain column mean for `w = none`,
and `(Σ wᵢ aᵢ) / (Σ wᵢ)` for explicit weights. -/
def npAverage (a : List Vec3) (w : Option (List ℚ)) : Vec3 :=
  match w with
  | none => v3smul (1 / (a.length : ℚ)) (a.foldl v3add v3zero)
  | some ws => v3smul (1 / ws.sum) ((List.zipWith v3smul ws a).foldl v3add v3zero)

/-- Error outcome of the superposition core. -/
inductive QcpError
  | dimMismatch
deriving DecidableEq, Repr

/-- Cast a coordinate row to a real 3-vector. -/
def ptR (v : Vec3) : Fin 3 → ℝ := ![(v.x : ℝ), (v.y : ℝ), (v.z : ℝ)]

/-- A proper rotation: orthogonal with determinant `+1`. -/
def IsProperRotation (R : Matrix (Fin 3) (Fin 3) ℝ) : Prop :=
  R.transpose * R = 1 ∧ R.det = 1

/-- Squared Euclidean norm of a real 3-vector. -/
def sqNorm3 (v : Fin 3 → ℝ) : ℝ := v 0 ^ 2 + v 1 ^ 2 + v 2 ^ 2

/-- Weighted sum of squared distances between paired points of `a` and the
rotated points of `b`. -/
def wssd (a b : List (Fin 3 → ℝ)) (w : List ℝ)
    (R : Matrix (Fin 3) (Fin 3) ℝ) : ℝ :=
  ((a.zip b).zip w).foldl (fun acc q => acc + q.2 * sqNorm3 (q.1.1 - R.mulVec q.1.2)) 0

/-- Modelled from the spec (§4.2, §2): the minimal weighted RMSD attainable by
applying a proper rotation to the second coordinate set, `sqrt(wssd / N)`
minimised over all proper rotations. -/
noncomputable def qcpMinRMSD (a b : List (Fin 3 → ℝ)) (n : Nat) (w : List ℝ) : ℝ :=
  sInf {r : ℝ | ∃ R, IsProperRotation R ∧ r = Real.sqrt (wssd a b w R / (n : ℝ))}

/-- Modelled from the spec: `MDAnalysis.lib.qcprot.CalcRMSDRotationalMatrix`
is not part of this module's sources; per §4.2 it "fails with a
dimension-mismatch error if `A` and `B` have different point counts" and
otherwise returns the minimal RMSD under the optimal proper rotation.  `n` is
the atom count the caller passes (`a.shape[0]` in `rmsd`), `w` the optional
relative weights; `w = none` means all weights `1`. -/
noncomputable def qcpCalcRMSD (a b : List Vec3) (n : Nat) (w : Option (List ℚ)) :
    Except QcpError ℝ :=
  if a.length ≠ b.length then .error .dimMismatch
  else .ok (qcpMinRMSD (a.map ptR) (b.map ptR) n
    (((w.getD (List.replicate n 1)).map (fun q => (q : ℝ)))))

/-- The module-level `rmsd(a, b, weights, center)` function
(`rms.py` lines 140-187): normalize the weights relative to their mean, center
each set on its (weighted) average if requested, and hand both sets to the
superposition core together with `a`'s point count. -/
noncomputable def rmsd (a b : List Vec3) (weights : Option (List ℚ))
    (center : Bool) : Except QcpError ℝ :=
  let relw := weights.map relativeWeights
  let a1 := if center then a.map (fun p => v3sub p (npAverage a weights)) else a
  let b1 := if center then b.map (fun p => v3sub p (npAverage b weights)) else b
  qcpCalcRMSD a1 b1 a.length relw

/-! ## `RMSD.__init__` selection validation (`rms.py` lines 317-362) -/

/-- The per-atom data the constructor checks: atom name and mass. -/
structure Atom where
  name : String
  mass : ℚ
deriving DecidableEq, Repr

/-- Failure modes of `RMSD.__init__`; the mass-mismatch error carries the
diagnostic pair list that lines 330-334 log before raising. -/
inductive InitError
  | countMismatch (nref ntraj : Nat)
  | massMismatch (reported : List (Atom × Atom)) (tol : ℚ)
  | groupCountMismatch (igroup nref ntraj : Nat)
deriving DecidableEq, Repr

/-- The diagnostic output of lines 331-334: among the zipped
(reference, trajectory) atom pairs, exactly those whose *names* differ are
logged. -/
def mismatchReport (refA trajA : List Atom) : List (Atom × Atom) :=
  (refA.zip trajA).filter (fun p => p.1.name != p.2.name)

/-- Line 327: `np.absolute(ref.masses - traj.masses) > tol_mass` followed by
`np.any`. -/
def hasMassMismatch (refA trajA : List Atom) (tol : ℚ) : Bool :=
  (refA.zip trajA).any (fun p => decide (tol < |p.1.mass - p.2.mass|))

/-- The group sanity check of lines 352-361: scan the resolved group selections
in order, raising on the first whose mobile and reference atom counts differ.
Each group is a `(reference, mobile)` pair of atom lists. -/
def groupCountCheck : Nat → List (List Atom × List Atom) → Except InitError Unit
  | _, [] => .ok ()
  | i, g :: gs =>
      if g.2.length ≠ g.1.length then
        .error (.groupCountMismatch i g.1.length g.2.length)
      else groupCountCheck (i + 1) gs

/-- The validation performed by `RMSD.__init__` (lines 317-362): primary
selection atom-count check, primary selection mass check (with the name-based
diagnostic report), then the per-group atom-count checks.  No trajectory frame
is read anywhere in the constructor. -/
def rmsdInitCheck (refA trajA : List Atom) (groups : List (List Atom × List Atom))
    (tol : ℚ) : Except InitError Unit :=
  if refA.length ≠ trajA.length then
    .error (.countMismatch refA.length trajA.length)
  else if hasMassMismatch refA trajA tol then
    .error (.massMismatch (mismatchReport refA trajA) tol)
  else groupCountCheck 0 groups

/-! ## `RMSD.save` (`rms.py` lines 487-501) -/

inductive SaveError
  | noData
deriving DecidableEq, Repr

/-- Observable outcome of a successful `save`: either a file was written and its
name returned, or the body was skipped and `None` returned. -/
inductive SaveOutcome
  | wrote (fn : String)
  | skipped
deriving DecidableEq, Repr

/-- Python's `filename or self.filename` (line 495): the argument if truthy
(`None` and the empty string are falsy), else the stored constructor value. -/
def pyOrFilename (arg stored : Option String) : Option String :=
  match arg with
  | some s => if s = "" then stored else some s
  | none => stored

/-- `RMSD.save(filename)` (lines 487-501), with `hasData` standing for
`self.rmsd is not None`: resolve the filename; if one resolves, raise
`NoDataError` when no run has stored a timeseries, else write; if none
resolves, fall through and return `None` without writing. -/
def rmsdSave (stored arg : Option String) (hasData : Bool) :
    Except SaveError SaveOutcome :=
  match pyOrFilename arg stored with
  | some fn => if hasData then .ok (.wrote fn) else .error .noData
  | none => .ok .skipped

/-! ## Reference-frame capture in `RMSD.run` (`rms.py` lines 400-417) -/

/-- Modelled from the spec (§5, §6): the trajectory collaborator exposes a
0-based current-frame cursor `ts.frame`, and `trajectory[i]` seeks to index
`i`, a negative `i` counting from the end (Python indexing). -/
def seekFrame (nframes : Nat) (i : Int) : Int :=
  if i < 0 then (nframes : Int) + i else i

/-- The cursor of the reference trajectory after `RMSD.run` returns (normally
or exceptionally): line 401 records `current_frame = ts.frame - 1` and the
`finally` block of line 416 seeks back to it. -/
def refRestoredFrame (nframes : Nat) (tsFrame : Int) : Int :=
  seekFrame nframes (tsFrame - 1)

/-! ## `_process_selection` (`rms.py` lines 190-233) -/

/-- A selection value as stored in a user dict: a single selection string or an
iterable of selection strings. -/
inductive SelVal
  | one (v : String)
  | many (vs : List String)
deriving DecidableEq, Repr

/-- Modelled from the spec (§4.1): `MDAnalysis.lib.util.asiterable` wraps a
lone string into a singleton list and passes an iterable of selection strings
through unchanged. -/
def asiterable : SelVal → List String
  | .one v => [v]
  | .many vs => vs

/-- A Python dict of selection values, as an insertion-ordered key/value list
with unique keys. -/
abbrev SelDict : Type := List (String × SelVal)

/-- Dict lookup. -/
def dictGet (d : SelDict) (k : String) : Option SelVal :=
  (d.find? (fun p => p.1 == k)).map (fun p => p.2)

/-- Dict assignment `d[k] = v`: overwrite the existing binding in place when
the key exists, append at the end otherwise. -/
def dictSet : SelDict → String → SelVal → SelDict
  | [], k, v => [(k, v)]
  | p :: ds, k, v => if p.1 == k then (k, v) :: ds else p :: dictSet ds k v

/-- The three accepted shapes of the `select` argument. -/
inductive SelectInput
  | str (s : String)
  | tup (elems : List SelVal)
  | dict (d : SelDict)
deriving DecidableEq, Repr

/-- Exceptions raised by `_process_selection`. -/
inductive ProcErr
  | indexError
  | keyError
  | typeError
deriving DecidableEq, Repr

/-- Result of `_process_selection`: the returned dict (for dict input, the
caller's dict updated in place) plus the emitted warnings. -/
structure ProcResult where
  dict : SelDict
  warnings : List String
deriving DecidableEq, Repr

/-- The final two statements of `_process_selection` (lines 231-232):
`select['mobile'] = asiterable(select['mobile'])` and likewise for
`reference`. -/
def applyAsiterable (d : SelDict) (warns : List String) : Except ProcErr ProcResult :=
  match dictGet d "mobile", dictGet d "reference" with
  | some mv, some rv =>
      .ok ⟨dictSet (dictSet d "mobile" (.many (asiterable mv)))
        "reference" (.many (asiterable rv)), warns⟩
  | _, _ => .error .keyError

/-- `_process_selection(select)` (`rms.py` lines 190-233).  A bare string
builds a fresh dict applying the string to both sides; a tuple of at least two
entries maps `(mobile, reference)`; a dict is mutated in place: a present
legacy `target` key silently overwrites `mobile` (with a deprecation warning,
lines 217-220), then both required keys are checked. -/
def processSelection : SelectInput → Except ProcErr ProcResult
  | .str s => applyAsiterable [("reference", .one s), ("mobile", .one s)] []
  | .tup elems =>
      match elems with
      | a :: b :: _ => applyAsiterable [("mobile", a), ("reference", b)] []
      | _ => .error .indexError
  | .dict d =>
      let step := match dictGet d "target" with
        | some tv => (dictSet d "mobile" tv,
            ["DeprecationWarning: use key mobile instead of deprecated target"])
        | none => (d, ([] : List String))
      if (dictGet step.1 "mobile").isSome && (dictGet step.1 "reference").isSome then
        applyAsiterable step.1 step.2
      else .error .keyError

/-! ## Theorems -/

/-- Sum of a list divided pointwise by a constant. -/
theorem sum_map_div (w : List ℚ) (c : ℚ) :
    (w.map (fun v => v / c)).sum = w.sum / c := by
  induction w with
  | nil => simp
  | cons a l ih => simp [ih, add_div]

/-- C4: the reference-trajectory cursor is NOT restored to its original frame
by `RMSD.run`.  With the 0-based cursor of the trajectory collaborator, the
`current_frame = ts.frame - 1` of line 401 makes the `finally` block of line
416 seek one frame before the original (and, through Python's negative-index
wraparound, to the last frame when the original cursor was at frame 0): for a
5-frame reference trajectory at frame 2 the cursor ends at frame 1, and at
frame 0 it ends at frame 4. -/
theorem rmsd_run_restore_offbyone :
    refRestoredFrame 5 2 = 1 ∧ refRestoredFrame 5 0 = 4 ∧
      (1 : Int) ≠ 2 ∧ (4 : Int) ≠ 0 := by decide

/-- C8 counterexample: `RMSD.save` called with no resolved output filename
(`filename=None` passed to the constructor and to `save`) before any run
returns `None` silently instead of failing with a no-data error. -/
theorem save_no_filename_silent :
    rmsdSave none none false = .ok .skipped ∧
      rmsdSave none none false ≠ .error .noData := by decide

/-- C8 (amended): calling `RMSD.save` before any successful run fails with a
no-data error whenever an output filename resolves (from the argument or the
stored constructor value); when no filename resolves it silently returns
`None`; in either case nothing is ever written without data. -/
theorem save_no_data_amended (stored arg : Option String) :
    (pyOrFilename arg stored ≠ none → rmsdSave stored arg false = .error .noData) ∧
      (∀ fn, rmsdSave stored arg false ≠ .ok (.wrote fn)) := by
  constructor
  · intro h
    cases hpf : pyOrFilename arg stored with
    | none => exact absurd hpf h
    | some fn => simp [rmsdSave, hpf]
  · intro fn
    cases hpf : pyOrFilename arg stored with
    | none => simp [rmsdSave, hpf]
    | some fn2 => simp [rmsdSave, hpf]

/-- C8 witness: with the constructor's default filename `"rmsd.dat"` stored, a
pre-run `save()` raises the no-data error. -/
theorem save_no_data_amended_witness :
    pyOrFilename none (some "rmsd.dat") ≠ none ∧
      rmsdSave (some "rmsd.dat") none false = .error .noData :=
  ⟨by decide, (save_no_data_amended (some "rmsd.dat") none).1 (by decide)⟩

/-- C2: the `rmsd` function hands coordinate sets with different point counts
to the superposition core, which rejects them with a dimension-mismatch error
instead of returning a numeric value. -/
theorem rmsd_dim_mismatch (a b : List Vec3) (w : Option (List ℚ)) (center : Bool)
    (h : a.length ≠ b.length) : rmsd a b w center = .error .dimMismatch := by
  unfold rmsd qcpCalcRMSD
  cases center <;> simp [h]

/-- C2 witness: a one-point set against an empty set. -/
theorem rmsd_dim_mismatch_witness :
    ([⟨0, 0, 0⟩] : List Vec3).length ≠ ([] : List Vec3).length ∧
      rmsd [⟨0, 0, 0⟩] [] none false = .error .dimMismatch :=
  ⟨by decide, rmsd_dim_mismatch _ _ none false (by decide)⟩

/-- C7: the weights passed on to the superposition routine are the caller's
weights divided by their mean (a freshly built array, the caller's list being
untouched by construction), and the resulting relative weights have mean
exactly 1. -/
theorem weights_normalized_mean_one (w : List ℚ) (hw : w ≠ [])
    (hm : qmean w ≠ 0) : qmean (relativeWeights w) = 1 := by
  have h1 : w.sum ≠ 0 := by
    intro h; exact hm (by simp [qmean, h])
  have h2 : ((w.length : ℚ)) ≠ 0 := by
    intro h; exact hm (by simp [qmean, h])
  unfold relativeWeights qmean
  rw [List.length_map, sum_map_div]
  field_simp

/-- C7 witness: weights `[2, 4]` have mean `3` and normalize to mean `1`. -/
theorem weights_normalized_mean_one_witness :
    ([(2 : ℚ), 4] ≠ []) ∧ qmean [(2 : ℚ), 4] ≠ 0 ∧
      qmean (relativeWeights [(2 : ℚ), 4]) = 1 :=
  ⟨by decide, by norm_num [qmean],
    weights_normalized_mean_one [2, 4] (by decide) (by norm_num [qmean])⟩

/-- The per-group sanity check succeeds exactly when every group pairs equal
atom counts. -/
theorem groupCountCheck_ok (groups : List (List Atom × List Atom)) :
    ∀ i, (groupCountCheck i groups = .ok () ↔ ∀ g ∈ groups, g.2.length = g.1.length) := by
  induction groups with
  | nil => intro i; simp [groupCountCheck]
  | cons g gs ih =>
    intro i
    by_cases h : g.2.length = g.1.length
    · simp [groupCountCheck, h, ih (i + 1)]
    · simp [groupCountCheck, h]

/-- C3 counterexample: the constructor does not validate group-selection
masses, and its mass-mismatch report drops pairs whose names agree.  With
`tol_mass = 1/10`: a group pairing an atom of mass 16 against one of mass 1
passes construction, and a primary selection pairing two atoms both named
`"CA"` with masses 12 and 3 raises the mass error with an empty diagnostic
pair list. -/
theorem rmsd_init_group_mass_unchecked :
    rmsdInitCheck [⟨"CA", 12⟩] [⟨"CA", 12⟩] [([⟨"O", 16⟩], [⟨"O", 1⟩])] (1/10) = .ok () ∧
    hasMassMismatch [⟨"O", 16⟩] [⟨"O", 1⟩] (1/10) = true ∧
    rmsdInitCheck [⟨"CA", 12⟩] [⟨"CA", 3⟩] [] (1/10) =
      .error (.massMismatch [] (1/10)) := by
  refine ⟨?_, ?_, ?_⟩
  · norm_num [rmsdInitCheck, hasMassMismatch, groupCountCheck]
  · norm_num [hasMassMismatch]
  · norm_num [rmsdInitCheck, hasMassMismatch, mismatchReport]

/-- C3 (amended): `RMSD` construction validates, before any trajectory frame
is read, that the primary selection resolves to equal atom counts on both
sides and that its corresponding atoms' masses agree within the tolerance,
and that every group selection resolves to equal atom counts — group masses
are not checked.  On a primary mass mismatch it raises carrying a diagnostic
report that lists exactly the zipped pairs whose atom *names* differ (a
mass-mismatching pair with equal names is not individually listed). -/
theorem rmsd_init_validation_amended (refA trajA : List Atom)
    (groups : List (List Atom × List Atom)) (tol : ℚ) :
    (rmsdInitCheck refA trajA groups tol = .ok () ↔
      (refA.length = trajA.length ∧ hasMassMismatch refA trajA tol = false ∧
        ∀ g ∈ groups, g.2.length = g.1.length)) ∧
    (refA.length = trajA.length → hasMassMismatch refA trajA tol = true →
      rmsdInitCheck refA trajA groups tol =
        .error (.massMismatch (mismatchReport refA trajA) tol)) := by
  constructor
  · by_cases hc : refA.length = trajA.length
    · by_cases hm : hasMassMismatch refA trajA tol
      · simp [rmsdInitCheck, hc, hm]
      · simp [rmsdInitCheck, hc, hm, groupCountCheck_ok groups 0]
    · simp [rmsdInitCheck, hc]
  · intro hc hm
    simp [rmsdInitCheck, hc, hm]

/-- C3 witness: a matching primary selection with no groups passes
construction. -/
theorem rmsd_init_validation_amended_witness :
    rmsdInitCheck [⟨"CA", 12⟩] [⟨"CA", 12⟩] [] (1/10) = .ok () :=
  (rmsd_init_validation_amended [⟨"CA", 12⟩] [⟨"CA", 12⟩] [] (1/10)).1.mpr
    (by refine ⟨rfl, ?_, by simp⟩; norm_num [hasMassMismatch])

/-- Filtering `range n` by `· < e` yields `range (min e n)`. -/
theorem range_filter_lt (e : Nat) :
    ∀ n, (List.range n).filter (fun i => decide (i < e)) = List.range (min e n) := by
  intro n
  induction n with
  | zero => simp
  | succ n ih =>
    rw [List.range_succ, List.filter_append, ih]
    by_cases h : n < e
    · have h1 : min e n = n := by omega
      have h2 : min e (n + 1) = n + 1 := by omega
      simp [h1, h2, h, List.range_succ]
    · have h1 : min e n = min e (n + 1) := by omega
      simp [h1, h]

/-- Collecting `xs[i]?` over `range e` yields `xs.take e`. -/
theorem filterMap_range_getElem {α : Type} (xs : List α) :
    ∀ e, (List.range e).filterMap (fun i => xs[i]?) = xs.take e := by
  intro e
  induction e with
  | zero => simp
  | succ e ih =>
    rw [List.range_succ, List.filterMap_append, ih, List.take_succ]
    cases h : xs[e]? <;> simp [h]

/-- One-step slices from index 0: `xs[0:stop:1]` is `xs.take`, clamped. -/
theorem pySlice_zero_one {α : Type} (xs : List α) (stop : Int) :
    pySlice xs 0 stop 1 = xs.take (sliceBound xs.length stop) := by
  unfold pySlice pySliceIdx
  have hs : sliceBound xs.length 0 = 0 := by simp [sliceBound]
  rw [hs]
  have hfilter : (List.range xs.length).filter
      (fun i => decide (0 ≤ i) && decide (i < sliceBound xs.length stop)
        && ((i - 0) % 1 == 0)) =
      (List.range xs.length).filter (fun i => decide (i < sliceBound xs.length stop)) := by
    apply List.filter_congr
    intro i _
    simp [Nat.mod_one]
  rw [hfilter, range_filter_lt, filterMap_range_getElem]
  rw [List.take_eq_take]
  omega

/-- C9: with its default arguments `RMSF.run` slices `trajectory[0:-1:1]`,
so the statistics cover exactly all frames but the last; the final frame is
covered when an explicit `stop` equal to the frame count is passed. -/
theorem rmsf_default_stop_excludes_last (natoms : Nat) (frames : List (List Vec3)) :
    rmsfRunDefault natoms frames = rmsfOnVisited natoms frames.dropLast ∧
    pySlice frames 0 (-1) 1 = frames.dropLast ∧
    pySlice frames 0 (frames.length : Int) 1 = frames := by
  have h1 : pySlice frames 0 (-1) 1 = frames.dropLast := by
    rw [pySlice_zero_one]
    have hb : sliceBound frames.length (-1) = frames.length - 1 := by
      simp only [sliceBound]
      rw [if_pos (by omega)]
      omega
    rw [hb, List.dropLast_eq_take]
  have h2 : pySlice frames 0 (frames.length : Int) 1 = frames := by
    rw [pySlice_zero_one]
    have hb : sliceBound frames.length (frames.length : Int) = frames.length := by
      simp [sliceBound]
    rw [hb, List.take_length]
  exact ⟨by rw [rmsfRunDefault, rmsfRun, h1], h1, h2⟩

/-- Looking up the key just assigned. -/
theorem dictGet_dictSet_self (d : SelDict) (k : String) (v : SelVal) :
    dictGet (dictSet d k v) k = some v := by
  induction d with
  | nil => simp [dictSet, dictGet]
  | cons p ds ih =>
    by_cases h : p.1 == k
    · simp [dictSet, h, dictGet]
    · simp only [dictSet, h]
      rw [if_neg (by simp_all)]
      simpa [dictGet, List.find?, h] using ih

/-- Assignment to one key leaves the other keys' bindings unchanged. -/
theorem dictGet_dictSet_other (d : SelDict) (k k2 : String) (v : SelVal)
    (h : k2 ≠ k) : dictGet (dictSet d k v) k2 = dictGet d k2 := by
  have hkk : (k == k2) = false := beq_eq_false_iff_ne.mpr (fun hh => h hh.symm)
  induction d with
  | nil => simp [dictSet, dictGet, List.find?, hkk]
  | cons p ds ih =>
    by_cases hp : p.1 == k
    · have hpk : p.1 = k := by simpa using hp
      simp [dictSet, hp, dictGet, List.find?, hkk, hpk]
    · by_cases hq : p.1 == k2
      · simp [dictSet, hp, dictGet, List.find?, hq]
      · simp only [dictSet, if_neg hp]
        simp only [dictGet, List.find?, hq] at ih ⊢
        exact ih

/-- C10: on a dict input `_process_selection` updates the caller's dict in
place: when both `mobile` and the legacy `target` key are present it succeeds,
the returned dict is the caller's dict with the `target` value silently
overwriting `mobile` (then wrapped by `asiterable`), the extra `target` key is
still present in the returned dict, and exactly one deprecation warning is
emitted. -/
theorem process_selection_dict_target_overwrite (d : SelDict) (mv tv rv : SelVal)
    (hm : dictGet d "mobile" = some mv) (ht : dictGet d "target" = some tv)
    (hr : dictGet d "reference" = some rv) :
    ∃ r, processSelection (.dict d) = .ok r ∧
      dictGet r.dict "mobile" = some (.many (asiterable tv)) ∧
      dictGet r.dict "target" = some tv ∧
      r.warnings = ["DeprecationWarning: use key mobile instead of deprecated target"] := by
  have hmob : dictGet (dictSet d "mobile" tv) "mobile" = some tv :=
    dictGet_dictSet_self d "mobile" tv
  have href : dictGet (dictSet d "mobile" tv) "reference" = some rv := by
    rw [dictGet_dictSet_other d "mobile" "reference" tv (by decide)]; exact hr
  have htar : dictGet (dictSet d "mobile" tv) "target" = some tv := by
    rw [dictGet_dictSet_other d "mobile" "target" tv (by decide)]; exact ht
  refine ⟨⟨dictSet (dictSet (dictSet d "mobile" tv) "mobile" (.many (asiterable tv)))
      "reference" (.many (asiterable rv)),
      ["DeprecationWarning: use key mobile instead of deprecated target"]⟩,
    ?_, ?_, ?_, rfl⟩
  · simp [processSelection, ht, hmob, href, applyAsiterable]
  · rw [dictGet_dictSet_other _ "reference" "mobile" _ (by decide),
      dictGet_dictSet_self]
  · rw [dictGet_dictSet_other _ "reference" "target" _ (by decide),
      dictGet_dictSet_other _ "mobile" "target" _ (by decide)]
    exact htar

/-- C10 witness: a caller dict holding `mobile`, `reference` and the legacy
`target` key. -/
theorem process_selection_dict_target_overwrite_witness :
    dictGet [("mobile", SelVal.one "A"), ("reference", SelVal.one "B"),
        ("target", SelVal.one "C")] "mobile" = some (.one "A") ∧
    ∃ r, processSelection (.dict [("mobile", SelVal.one "A"),
        ("reference", SelVal.one "B"), ("target", SelVal.one "C")]) = .ok r ∧
      dictGet r.dict "mobile" = some (.many (asiterable (SelVal.one "C"))) ∧
      dictGet r.dict "target" = some (.one "C") ∧
      r.warnings = ["DeprecationWarning: use key mobile instead of deprecated target"] :=
  ⟨by decide,
    process_selection_dict_target_overwrite _ (.one "A") (.one "C") (.one "B")
      (by decide) (by decide) (by decide)⟩

/-- The identity matrix is a proper rotation. -/
theorem isProperRotation_one : IsProperRotation (1 : Matrix (Fin 3) (Fin 3) ℝ) := by
  constructor
  · rw [Matrix.transpose_one, one_mul]
  · exact Matrix.det_one

/-- Zipping a list with itself pairs each element with itself. -/
theorem zip_self {α : Type} (l : List α) : l.zip l = l.map (fun x => (x, x)) := by
  induction l with
  | nil => rfl
  | cons a t ih => simp [ih]

/-- A fold that only ever adds vanishing terms returns its accumulator. -/
theorem foldl_add_eq_of_zero {β : Type} (f : β → ℝ) :
    ∀ (l : List β) (acc : ℝ), (∀ q ∈ l, f q = 0) →
      l.foldl (fun a q => a + f q) acc = acc := by
  intro l
  induction l with
  | nil => intro acc _; rfl
  | cons b t ih =>
    intro acc h
    simp only [List.foldl_cons]
    rw [h b (List.mem_cons_self b t), add_zero]
    exact ih acc (fun q hq => h q (List.mem_cons_of_mem b hq))

/-- The weighted sum of squared distances of a set to itself under the
identity rotation vanishes. -/
theorem wssd_self_one (a : List (Fin 3 → ℝ)) (w : List ℝ) : wssd a a w 1 = 0 := by
  unfold wssd
  apply foldl_add_eq_of_zero
  rintro ⟨⟨q1, q2⟩, qw⟩ hq
  have h1 : (q1, q2) ∈ a.zip a := (List.of_mem_zip hq).1
  rw [zip_self] at h1
  obtain ⟨x, _, hx⟩ := List.mem_map.mp h1
  obtain ⟨hx1, hx2⟩ := Prod.mk.injEq .. ▸ hx
  subst hx1; subst hx2
  rw [Matrix.one_mulVec, sub_self]
  simp [sqNorm3]

/-- Self-superposition attains minimal RMSD zero. -/
theorem qcpMinRMSD_self (a : List (Fin 3 → ℝ)) (n : Nat) (w : List ℝ) :
    qcpMinRMSD a a n w = 0 := by
  unfold qcpMinRMSD
  set S := {r : ℝ | ∃ R, IsProperRotation R ∧ r = Real.sqrt (wssd a a w R / (n : ℝ))}
    with hS
  have h0 : (0 : ℝ) ∈ S :=
    ⟨1, isProperRotation_one, by rw [wssd_self_one, zero_div, Real.sqrt_zero]⟩
  have hlb : ∀ r ∈ S, (0 : ℝ) ≤ r := by
    rintro r ⟨R, _, rfl⟩
    exact Real.sqrt_nonneg _
  exact le_antisymm (csInf_le ⟨0, hlb⟩ h0) (le_csInf ⟨0, h0⟩ hlb)

/-- C5: for every coordinate set `a` and every weight option (none or any
list), `rmsd(a, a)` returns exactly 0, with or without centering. -/
theorem rmsd_self_zero (a : List Vec3) (w : Option (List ℚ)) (center : Bool) :
    rmsd a a w center = .ok 0 := by
  unfold rmsd qcpCalcRMSD
  cases center <;> simp [qcpMinRMSD_self]

/-- The visit counter returned by the accumulator loop counts the processed
frames. -/
theorem rmsfLoop_count : ∀ (fs : List (List Vec3)) (k : Nat) (s m : List Vec3),
    (rmsfLoop fs k s m).2.2 = k + fs.length := by
  intro fs
  induction fs with
  | nil => intro k s m; simp [rmsfLoop]
  | cons p rest ih =>
    intro k s m
    rw [rmsfLoop, ih, List.length_cons]
    omega

/-- C1: for every trajectory and slice parameters with a nonempty visited
frame list, `RMSF.run` returns exactly the spec's streaming result: the fold
of `sumsq += (k/(k+1))·(P_k − mean)²`, `mean := (k·mean + P_k)/(k+1)` over the
visited frames, finished per atom as the square root of the coordinate-summed
`sumsq` divided by the actual number of visited frames (not `stop − start`). -/
theorem rmsf_run_streaming_spec (natoms : Nat) (frames : List (List Vec3))
    (start stop : Int) (step : Nat)
    (h : pySlice frames start stop step ≠ []) :
    rmsfRun natoms frames start stop step =
      .ok (specRmsf natoms (pySlice frames start stop step)) := by
  unfold rmsfRun specRmsf
  cases hvv : pySlice frames start stop step with
  | nil => exact absurd hvv h
  | cons v vs =>
    simp only [rmsfOnVisited, rmsfLoop_count, Nat.zero_add]
    rw [if_pos ?_]
    · rintro u hu
      obtain ⟨vv, _, rfl⟩ := List.mem_map.mp hu
      exact Real.sqrt_nonneg _

/-- C1 witness: three frames of one atom sliced with step 2 visit two
frames. -/
theorem rmsf_run_streaming_spec_witness :
    pySlice [[(⟨0, 0, 0⟩ : Vec3)], [⟨1, 0, 0⟩], [⟨2, 0, 0⟩]] 0 3 2 ≠ [] ∧
      rmsfRun 1 [[(⟨0, 0, 0⟩ : Vec3)], [⟨1, 0, 0⟩], [⟨2, 0, 0⟩]] 0 3 2 =
        .ok (specRmsf 1 (pySlice [[(⟨0, 0, 0⟩ : Vec3)], [⟨1, 0, 0⟩], [⟨2, 0, 0⟩]] 0 3 2)) :=
  ⟨by decide, rmsf_run_streaming_spec 1 _ 0 3 2 (by decide)⟩

/-- Updating a running mean with its own value leaves it unchanged (exact
arithmetic). -/
theorem meanUpdate_self (k : Nat) (p : ℚ) : meanUpdate k p p = p := by
  unfold meanUpdate
  have h : ((k : ℚ) + 1) ≠ 0 := by positivity
  field_simp
  ring

theorem v3meanUpdate_self (k : Nat) (p : Vec3) : v3meanUpdate k p p = p := by
  cases p
  simp [v3meanUpdate, meanUpdate_self]

/-- A position equal to the running mean contributes nothing to `sumsq`. -/
theorem sumsqUpdate_self (k : Nat) (s p : ℚ) : sumsqUpdate k s p p = s := by
  unfold sumsqUpdate
  simp [sub_self]

theorem v3sumsqUpdate_self (k : Nat) (p : Vec3) :
    v3sumsqUpdate k v3zero p p = v3zero := by
  simp [v3sumsqUpdate, v3zero, sumsqUpdate_self]

/-- The very first mean update (visit index 0, zero-initialised mean) lands
exactly on the frame's value. -/
theorem meanUpdate_init (p : ℚ) : meanUpdate 0 p 0 = p := by
  unfold meanUpdate
  simp

theorem v3meanUpdate_init (p : Vec3) : v3meanUpdate 0 p v3zero = p := by
  cases p
  simp [v3meanUpdate, v3zero, meanUpdate_init]

/-- The very first `sumsq` update (factor `0/1`) is zero. -/
theorem sumsqUpdate_init (p : ℚ) : sumsqUpdate 0 0 p 0 = 0 := by
  unfold sumsqUpdate
  simp

theorem v3sumsqUpdate_init (p : Vec3) : v3sumsqUpdate 0 v3zero p v3zero = v3zero := by
  simp [v3sumsqUpdate, v3zero, sumsqUpdate_init]

theorem meanStepList_self (k : Nat) (F : List Vec3) : meanStepList k F F = F := by
  induction F with
  | nil => rfl
  | cons p t ih =>
    simp only [meanStepList, List.zipWith_cons_cons, v3meanUpdate_self]
    simpa [meanStepList] using congrArg (p :: ·) ih

theorem sumsqStepList_self (k : Nat) :
    ∀ (F : List Vec3), sumsqStepList k (List.replicate F.length v3zero) F F =
      List.replicate F.length v3zero := by
  intro F
  induction F with
  | nil => rfl
  | cons p t ih =>
    simp only [List.length_cons, List.replicate_succ, sumsqStepList,
      List.zip_cons_cons, List.zipWith_cons_cons, v3sumsqUpdate_self]
    simpa [sumsqStepList] using congrArg (v3zero :: ·) ih

theorem meanStepList_init :
    ∀ (F : List Vec3), meanStepList 0 (List.replicate F.length v3zero) F = F := by
  intro F
  induction F with
  | nil => rfl
  | cons p t ih =>
    simp only [List.length_cons, List.replicate_succ, meanStepList,
      List.zipWith_cons_cons, v3meanUpdate_init]
    simpa [meanStepList] using congrArg (p :: ·) ih

theorem sumsqStepList_init :
    ∀ (F : List Vec3), sumsqStepList 0 (List.replicate F.length v3zero)
      (List.replicate F.length v3zero) F = List.replicate F.length v3zero := by
  intro F
  induction F with
  | nil => rfl
  | cons p t ih =>
    simp only [List.length_cons, List.replicate_succ, sumsqStepList,
      List.zip_cons_cons, List.zipWith_cons_cons, v3sumsqUpdate_init]
    simpa [sumsqStepList] using congrArg (v3zero :: ·) ih

/-- Once the running mean equals the constant frame, the accumulator is a
fixed point of the loop. -/
theorem rmsfLoop_const (F : List Vec3) :
    ∀ (fs : List (List Vec3)) (k : Nat), (∀ f ∈ fs, f = F) →
      rmsfLoop fs k (List.replicate F.length v3zero) F =
        (List.replicate F.length v3zero, F, k + fs.length) := by
  intro fs
  induction fs with
  | nil => intro k _; simp [rmsfLoop]
  | cons g rest ih =>
    intro k hconst
    have hg : g = F := hconst g (List.mem_cons_self g rest)
    subst hg
    rw [rmsfLoop, sumsqStepList_self, meanStepList_self,
      ih (k + 1) (fun f hf => hconst f (List.mem_cons_of_mem g hf))]
    simp only [List.length_cons, Prod.mk.injEq, true_and]
    omega

/-- C6: on any trajectory whose visited frames all carry the same positions,
`RMSF.run` returns exactly 0 for every atom. -/
theorem rmsf_constant_traj_zero (natoms : Nat) (frames : List (List Vec3))
    (start stop : Int) (step : Nat) (F : List Vec3) (hF : F.length = natoms)
    (hconst : ∀ f ∈ pySlice frames start stop step, f = F)
    (h : pySlice frames start stop step ≠ []) :
    rmsfRun natoms frames start stop step =
      .ok (List.replicate natoms (0 : ℝ)) := by
  subst hF
  unfold rmsfRun
  cases hvv : pySlice frames start stop step with
  | nil => exact absurd hvv h
  | cons v vs =>
    rw [hvv] at hconst
    have hv : v = F := hconst v (List.mem_cons_self v vs)
    have hlen : v.length = F.length := by rw [hv]
    rw [← hlen]
    have hvs : ∀ f ∈ vs, f = v := fun f hf => by
      rw [hv]; exact hconst f (List.mem_cons_of_mem v hf)
    have hloop : rmsfLoop (v :: vs) 0 (List.replicate v.length v3zero)
        (List.replicate v.length v3zero) =
        (List.replicate v.length v3zero, v, 1 + vs.length) := by
      rw [rmsfLoop, sumsqStepList_init, meanStepList_init, rmsfLoop_const v vs 1 hvs]
    simp only [rmsfOnVisited, hloop]
    have hmap : (List.replicate v.length v3zero).map
        (fun vv => Real.sqrt (((v3sum vv / ((1 + vs.length : Nat) : ℚ)) : ℚ) : ℝ)) =
        List.replicate v.length (0 : ℝ) := by
      rw [List.map_replicate]
      simp [v3sum, v3zero]
    rw [hmap, if_pos ?_]
    rintro u hu
    rw [List.eq_of_mem_replicate hu]

/-- C6 witness: two identical frames of one atom give RMSF exactly 0. -/
theorem rmsf_constant_traj_zero_witness :
    ([(⟨1, 2, 3⟩ : Vec3)].length = 1) ∧
      (∀ f ∈ pySlice [[(⟨1, 2, 3⟩ : Vec3)], [⟨1, 2, 3⟩]] 0 2 1, f = [(⟨1, 2, 3⟩ : Vec3)]) ∧
      pySlice [[(⟨1, 2, 3⟩ : Vec3)], [⟨1, 2, 3⟩]] 0 2 1 ≠ [] ∧
      rmsfRun 1 [[(⟨1, 2, 3⟩ : Vec3)], [⟨1, 2, 3⟩]] 0 2 1 =
        .ok (List.replicate 1 (0 : ℝ)) :=
  ⟨by decide, by decide, by decide,
    rmsf_constant_traj_zero 1 _ 0 2 1 [⟨1, 2, 3⟩] (by decide) (by decide) (by decide)⟩

end MDRms
